import Mathlib

/-!
Shallow embedding of `src/RFInterface.cpp` (a RealFlight SOAP client):
the socket pool (`SocketPool`), the SOAP request framing and receive loop
(`RFInterface::soap_request_start` / `soap_request_end`), the telemetry
decoder (`RFInterface::parse_reply`) and the session state machine
(`RFInterface::update` / `RFInterface::exchange_data`).

Modelling conventions: C `double` values are rationals (no arithmetic is
performed on them in the code, only copying and decimal parsing); byte
buffers are lists of characters (the buffers are NUL-terminated C strings
with no interior NUL); outcomes of system calls (`connect`, `send`,
`select`, `recv`) are explicit oracle parameters, since the real outcomes
depend on the network.
-/

/-- Model of `struct control_input` (declared in `RFInterface.h`, consumed by
`RFInterface::update`): the six control channels. -/
structure control_input where
  aileron : ℚ
  elevator : ℚ
  throttle : ℚ
  rudder : ℚ
  flaps : ℚ
  gear : ℚ

/-- The `double channels[12]` array built in `RFInterface::exchange_data`:
all twelve entries initialised to `0.5`, then indices 0–5 overwritten with
`input.aileron`, `input.elevator`, `input.throttle`, `input.rudder`,
`input.flaps`, `input.gear`. -/
def channels (input : control_input) : List ℚ :=
  ((((((List.replicate 12 (1/2 : ℚ)).set 0 input.aileron).set 1
      input.elevator).set 2 input.throttle).set 3 input.rudder).set 4
      input.flaps).set 5 input.gear

/-- Model of C `strstr`: the index of the first occurrence of `pat` in the
buffer, `none` when `pat` occurs nowhere. -/
def strstrIdx (pat : List Char) : List Char → Option Nat
  | [] => if pat.isPrefixOf ([] : List Char) then some 0 else none
  | c :: t =>
    if pat.isPrefixOf (c :: t) then some 0
    else (strstrIdx pat t).map (· + 1)

/-- Whether `pat` occurs somewhere in `xs` (C `strstr(xs, pat) != nullptr`). -/
def containsSub (xs pat : List Char) : Bool :=
  (strstrIdx pat xs).isSome

/-- Value of a run of decimal digits, most significant first. -/
def digitsToNat (ds : List Char) : Nat :=
  ds.foldl (fun a c => a * 10 + (c.toNat - Char.toNat '0')) 0

/-- Exponent part of a decimal literal: `strtod` consumes `e[sign]digits`
only when at least one digit follows; otherwise the exponent contributes
nothing. -/
def readExp (t : List Char) : Int :=
  let esign : Int :=
    match t with
    | '-' :: _ => -1
    | _ => 1
  let t2 : List Char :=
    match t with
    | '-' :: u => u
    | '+' :: u => u
    | _ => t
  let ds := t2.takeWhile (fun c => c.isDigit)
  if ds.isEmpty then 0 else esign * (digitsToNat ds : Int)

/-- Model of `std::stod` as invoked by `RFInterface::parse_reply`, restricted
to decimal forms: optional leading whitespace, optional sign, digits with an
optional fractional part, optional decimal exponent. Hexadecimal, infinity
and NaN literals (never produced by the RealFlight telemetry fields this
program reads, and irrelevant to the claims settled here) are not modelled,
and values are exact rationals rather than rounded doubles. `none` models
`std::stod` throwing because no conversion is possible. -/
def stod (s : List Char) : Option ℚ :=
  let s1 := s.dropWhile (fun c => c.isWhitespace)
  let sign : ℚ :=
    match s1 with
    | '-' :: _ => -1
    | _ => 1
  let s2 : List Char :=
    match s1 with
    | '-' :: t => t
    | '+' :: t => t
    | _ => s1
  let intPart := s2.takeWhile (fun c => c.isDigit)
  let s3 := s2.dropWhile (fun c => c.isDigit)
  let fracPart : List Char :=
    match s3 with
    | '.' :: t => t.takeWhile (fun c => c.isDigit)
    | _ => []
  let s4 : List Char :=
    match s3 with
    | '.' :: t => t.dropWhile (fun c => c.isDigit)
    | _ => s3
  if intPart.isEmpty && fracPart.isEmpty then none
  else
    let mant : ℚ :=
      sign * ((digitsToNat intPart : ℚ) +
        (digitsToNat fracPart : ℚ) / (10 : ℚ) ^ fracPart.length)
    let ex : Int :=
      match s4 with
      | 'e' :: t => readExp t
      | 'E' :: t => readExp t
      | _ => 0
    if 0 ≤ ex then some (mant * (10 : ℚ) ^ ex.toNat)
    else some (mant / (10 : ℚ) ^ (-ex).toNat)

/-- The `extract_value` lambda inside `RFInterface::parse_reply`: find the
first `<tag>` anywhere in the buffer, then the first `</tag>` after it;
return `0.0` when either is missing; decode the enclosed text `true` to
`1.0` and `false` to `0.0`, otherwise parse it with `std::stod`, defaulting
to `0.0` on any parse failure. -/
def extract_value (xml tag : List Char) : ℚ :=
  let search_tag : List Char := '<' :: (tag ++ ['>'])
  let end_tag : List Char := '<' :: '/' :: (tag ++ ['>'])
  match strstrIdx search_tag xml with
  | none => 0
  | some i =>
    let rest := xml.drop (i + search_tag.length)
    match strstrIdx end_tag rest with
    | none => 0
    | some j =>
      let value_str := rest.take j
      if value_str = ("true".toList) then 1
      else if value_str = ("false".toList) then 0
      else
        match stod value_str with
        | none => 0
        | some v => v

/-- `RFInterface::parse_reply`: every keytable entry's destination slot is
overwritten with the value extracted for its tag (`keytable[i].ref = value`);
the previous DecodedState does not enter. The keytable itself is declared in
`RFInterface.h`, so the tag list is a parameter; the decoded state is the
parallel list of slot values. -/
def parse_reply (reply : List Char) (keys : List (List Char)) : List ℚ :=
  keys.map (fun k => extract_value reply k)

/-- The closing-envelope marker `"</SOAP-ENV:Envelope>"` searched for by the
receive loop in `RFInterface::soap_request_end`. -/
def envelope_marker : List Char := "</SOAP-ENV:Envelope>".toList

/-- Why the receive loop in `RFInterface::soap_request_end` stopped. -/
inductive StopReason where
  | bufferFull
  | peerClosed
  | markerFound
deriving DecidableEq

/-- The receive loop of `RFInterface::soap_request_end`. `cap` is
`sizeof(reply_buffer)` (declared in `RFInterface.h`); `events` lists the
successive `recv` outcomes, an empty chunk meaning `recv` returned `<= 0`
(peer closed or errored) — `recv` on a closed socket keeps returning `0`,
so an exhausted event list is also read as the peer having closed. Each
data chunk is cut to the space `recv` was offered, namely
`sizeof(reply_buffer) - total_received - 1`. After each chunk the whole
accumulated buffer is scanned for `envelope_marker`, exactly like
`strstr(reply_buffer, "</SOAP-ENV:Envelope>")`. -/
def recvLoop (cap : Nat) : List (List Char) → List Char → List Char × StopReason
  | [], acc =>
    if cap - 1 ≤ acc.length then (acc, StopReason.bufferFull)
    else (acc, StopReason.peerClosed)
  | e :: rest, acc =>
    if cap - 1 ≤ acc.length then (acc, StopReason.bufferFull)
    else if e.isEmpty then (acc, StopReason.peerClosed)
    else
      let acc' := acc ++ e.take (cap - 1 - acc.length)
      if containsSub acc' envelope_marker then (acc', StopReason.markerFound)
      else recvLoop cap rest acc'

/-- `RFInterface::soap_request_end`. `sock_fd` is the current socket
(negative when no request is in flight); `selectReady` is the outcome of the
`select` call, `false` covering both timeout and wait error (`ready <= 0`) —
the `timeout_ms` argument only bounds its real-time wait; `events` drives
the receive loop. Returns the reply buffer (`none` models returning
`nullptr`) together with whether the socket was closed during the call. -/
def soap_request_end (sock_fd : Int) (timeout_ms : Nat) (selectReady : Bool)
    (cap : Nat) (events : List (List Char)) : Option (List Char) × Bool :=
  if sock_fd < 0 then (none, false)
  else if selectReady = false then (none, true)
  else
    let buf := (recvLoop cap events []).1
    (if buf.isEmpty then none else some buf, true)

/-- `SocketPool::get_socket`: pop and return the front idle socket; when the
queue is empty, synchronously call `create_connection` (its outcome is the
oracle `createResult`, `-1` on failure) and return that, leaving the queue
untouched. -/
def get_socket (q : List Int) (createResult : Int) : Int × List Int :=
  match q with
  | [] => (createResult, [])
  | s :: rest => (s, rest)

/-- State of `SocketPool` as seen through its lock: the idle-queue length,
and whether the single background `maintain_pool` thread has passed its
size check (made under the lock, then released) and is about to push the
connection it is creating. -/
structure PoolState where
  qlen : Nat
  pending : Bool
deriving DecidableEq

/-- Interleaved atomic steps on the pool state. `acquire` is
`SocketPool::get_socket` (pop one socket, or touch nothing when empty —
`Nat` subtraction covers both). The background `maintain_pool` iteration is
split at its lock boundaries: `check` observes `size < max_pool_size` and
commits to a push, `checkFull` observes a full queue and does nothing,
`push` appends the freshly created connection, `createFail` abandons the
iteration when `create_connection` failed. Only one refill iteration is in
flight at a time (one background thread). -/
inductive PoolStep (max : Nat) : PoolState → PoolState → Prop where
  | acquire (s : PoolState) : PoolStep max s ⟨s.qlen - 1, s.pending⟩
  | check (s : PoolState) : s.pending = false → s.qlen < max →
      PoolStep max s ⟨s.qlen, true⟩
  | checkFull (s : PoolState) : s.pending = false → max ≤ s.qlen →
      PoolStep max s s
  | push (s : PoolState) : s.pending = true →
      PoolStep max s ⟨s.qlen + 1, false⟩
  | createFail (s : PoolState) : s.pending = true →
      PoolStep max s ⟨s.qlen, false⟩

/-- Oracle outcomes for one SOAP round-trip: the socket `sock` that
`soap_request_start` stored in `sock_fd` (`soap_request_start` succeeds only
with a non-negative socket), whether `soap_request_start` succeeded
(pool/socket/send), whether `select` reported the socket readable, and the
`recv` outcomes. -/
structure SoapEnv where
  sock : Int
  startOk : Bool
  selectReady : Bool
  events : List (List Char)

/-- Result of one `RFInterface::exchange_data` call: the DecodedState slots
after the call, whether the cycle updated telemetry (reply received and
parsed), and the channel vector that was encoded into the request body. -/
structure ExchangeOut where
  st : List ℚ
  ok : Bool
  sentChannels : List ℚ

/-- `RFInterface::exchange_data`: build the channel vector and its XML body,
send it as the `ExchangeData` action via `soap_request_start`, wait up to
1000 ms for the reply via `soap_request_end`, and only when a reply arrived
overwrite DecodedState via `parse_reply`; on start failure or missing reply,
return with DecodedState untouched. -/
def exchange_data (cap : Nat) (env : SoapEnv) (keys : List (List Char))
    (st : List ℚ) (input : control_input) : ExchangeOut :=
  let chans := channels input
  if env.startOk = false then ⟨st, false, chans⟩
  else
    match (soap_request_end env.sock 1000 env.selectReady cap env.events).1 with
    | none => ⟨st, false, chans⟩
    | some r => ⟨parse_reply r keys, true, chans⟩

/-- The fixed handshake action name sent by `RFInterface::update`. -/
def inject_action : String := "InjectUAVControllerInterface"

/-- The fixed (argument-free) handshake body sent by `RFInterface::update`. -/
def inject_body : String := "<a>1</a><b>2</b>"

/-- The reply timeout, in milliseconds, that `RFInterface::update` passes to
`soap_request_end` for the handshake. -/
def handshake_timeout_ms : Nat := 1000

/-- Initial value of the `controller_started` flag, set `false` by the
`RFInterface` constructor: the session starts uninitialized. -/
def controller_started_init : Bool := false

/-- Observable outcome of one `RFInterface::update` call: the
`controller_started` flag after the call, the handshake request sent (action,
body, reply timeout) if one was attempted, whether `exchange_data` ran,
whether that cycle updated telemetry, the channel vector handed to the
framer if `exchange_data` ran, and the DecodedState after the call. -/
structure UpdateOut where
  started : Bool
  handshakeSent : Option (String × String × Nat)
  exchangeCalled : Bool
  exchangeOk : Bool
  sentChannels : Option (List ℚ)
  st : List ℚ

/-- Per-call oracle for `RFInterface::update`: outcomes of the handshake
round-trip and of the data-exchange round-trip. -/
structure CallEnv where
  hs : SoapEnv
  ex : SoapEnv

/-- `RFInterface::update`: while `controller_started` is false, first send
the fixed `InjectUAVControllerInterface` handshake (body `<a>1</a><b>2</b>`)
and wait 1000 ms for its reply; only a received reply sets
`controller_started` and lets the same call fall through to
`exchange_data`; a start failure or a missing reply returns early with
nothing else done. Once `controller_started` is true, every call goes
straight to `exchange_data`. -/
def update (cap : Nat) (env : CallEnv) (keys : List (List Char))
    (started : Bool) (st : List ℚ) (input : control_input) : UpdateOut :=
  if started = false then
    if env.hs.startOk then
      match (soap_request_end env.hs.sock handshake_timeout_ms
          env.hs.selectReady cap env.hs.events).1 with
      | some _ =>
        let r := exchange_data cap env.ex keys st input
        ⟨true, some (inject_action, inject_body, handshake_timeout_ms),
          true, r.ok, some r.sentChannels, r.st⟩
      | none =>
        ⟨false, some (inject_action, inject_body, handshake_timeout_ms),
          false, false, none, st⟩
    else
      ⟨false, some (inject_action, inject_body, handshake_timeout_ms),
        false, false, none, st⟩
  else
    let r := exchange_data cap env.ex keys st input
    ⟨true, none, true, r.ok, some r.sentChannels, r.st⟩

/-! ## Helper lemmas -/

theorem isPrefixOf_append (pat xs ys : List Char)
    (h : pat.isPrefixOf xs = true) : pat.isPrefixOf (xs ++ ys) = true := by
  induction pat generalizing xs with
  | nil => simp [List.isPrefixOf]
  | cons p pt ih =>
    cases xs with
    | nil => simp [List.isPrefixOf] at h
    | cons x xt =>
      simp only [List.isPrefixOf, List.cons_append, Bool.and_eq_true] at h ⊢
      exact ⟨h.1, ih xt h.2⟩

theorem strstrIdx_isSome_of_isPrefixOf (pat zs : List Char)
    (h : pat.isPrefixOf zs = true) : (strstrIdx pat zs).isSome = true := by
  cases zs <;> simp [strstrIdx, h]

theorem containsSub_append (xs ys pat : List Char)
    (h : containsSub xs pat = true) : containsSub (xs ++ ys) pat = true := by
  induction xs with
  | nil =>
    unfold containsSub strstrIdx at h
    by_cases hp : pat.isPrefixOf ([] : List Char) = true
    · have hq : pat.isPrefixOf (([] : List Char) ++ ys) = true :=
        isPrefixOf_append pat [] ys hp
      simpa [containsSub] using strstrIdx_isSome_of_isPrefixOf pat _ hq
    · simp [hp] at h
  | cons x t ih =>
    unfold containsSub strstrIdx at h
    by_cases hp : pat.isPrefixOf (x :: t) = true
    · have hq : pat.isPrefixOf ((x :: t) ++ ys) = true :=
        isPrefixOf_append pat (x :: t) ys hp
      simpa [containsSub] using strstrIdx_isSome_of_isPrefixOf pat _ hq
    · simp [hp, Option.isSome_map] at h
      have h2 := ih (by simpa [containsSub] using h)
      unfold containsSub strstrIdx
      by_cases hq : pat.isPrefixOf (x :: (t ++ ys)) = true
      · simp [hq]
      · simp only [List.cons_append, hq, if_neg, Bool.false_eq_true,
          not_false_eq_true, Option.isSome_map]
        simpa [containsSub] using h2

theorem strstrIdx_first (pat : List Char) :
    ∀ xs i, strstrIdx pat xs = some i →
      pat.isPrefixOf (xs.drop i) = true ∧
      ∀ j, j < i → pat.isPrefixOf (xs.drop j) = false := by
  intro xs
  induction xs with
  | nil =>
    intro i h
    unfold strstrIdx at h
    by_cases hp : pat.isPrefixOf ([] : List Char) = true
    · simp [hp] at h
      refine ⟨by simpa [← h] using hp, ?_⟩
      intro j hj
      omega
    · simp [hp] at h
  | cons x t ih =>
    intro i h
    unfold strstrIdx at h
    by_cases hp : pat.isPrefixOf (x :: t) = true
    · simp [hp] at h
      refine ⟨by simpa [← h] using hp, ?_⟩
      intro j hj
      omega
    · simp [hp] at h
      obtain ⟨k, hk, hki⟩ := h
      obtain ⟨h1, h2⟩ := ih k hk
      subst hki
      refine ⟨by simpa using h1, ?_⟩
      intro j hj
      cases j with
      | zero =>
        simp only [List.drop_zero]
        exact Bool.eq_false_iff.mpr hp
      | succ j' =>
        simpa using h2 j' (by omega)

theorem recvLoop_length (cap : Nat) :
    ∀ (events : List (List Char)) (acc : List Char),
      acc.length ≤ cap - 1 → ((recvLoop cap events acc).1).length ≤ cap - 1 := by
  intro events
  induction events with
  | nil =>
    intro acc hacc
    simp only [recvLoop]
    split <;> simpa using hacc
  | cons e rest ih =>
    intro acc hacc
    simp only [recvLoop]
    split
    · simpa using hacc
    · split
      · simpa using hacc
      · have hlen : (acc ++ e.take (cap - 1 - acc.length)).length ≤ cap - 1 := by
          have ht : (e.take (cap - 1 - acc.length)).length ≤ cap - 1 - acc.length := by
            simp [List.length_take]
          rw [List.length_append]
          omega
        split
        · simpa using hlen
        · exact ih _ hlen

theorem recvLoop_full_reason (cap : Nat) :
    ∀ (events : List (List Char)) (acc : List Char),
      (recvLoop cap events acc).2 = StopReason.bufferFull →
      cap - 1 ≤ ((recvLoop cap events acc).1).length := by
  intro events
  induction events with
  | nil =>
    intro acc h
    simp only [recvLoop] at h ⊢
    split at h <;> simp_all
  | cons e rest ih =>
    intro acc h
    simp only [recvLoop] at h ⊢
    split at h
    · simp_all
    · split at h
      · simp_all
      · split at h
        · simp_all
        · rename_i h1 h2 h3
          simp only [h1, h2, h3, if_neg, if_false]
          exact ih _ h

theorem recvLoop_marker_reason (cap : Nat) :
    ∀ (events : List (List Char)) (acc : List Char),
      (recvLoop cap events acc).2 = StopReason.markerFound →
      containsSub ((recvLoop cap events acc).1) envelope_marker = true := by
  intro events
  induction events with
  | nil =>
    intro acc h
    simp only [recvLoop] at h ⊢
    split at h <;> simp_all
  | cons e rest ih =>
    intro acc h
    simp only [recvLoop] at h ⊢
    split at h
    · simp_all
    · split at h
      · simp_all
      · split at h
        · rename_i h1 h2 h3
          simp only [h1, h2, h3, if_neg, if_false]
          simp_all
        · rename_i h1 h2 h3
          simp only [h1, h2, h3, if_neg, if_false]
          exact ih _ h

theorem recvLoop_closes (cap : Nat) :
    ∀ (chunks : List (List Char)) (acc : List Char),
      (∀ c ∈ chunks, c ≠ ([] : List Char)) →
      (acc ++ chunks.flatten).length < cap - 1 →
      containsSub (acc ++ chunks.flatten) envelope_marker = false →
      recvLoop cap (chunks ++ [[]]) acc =
        (acc ++ chunks.flatten, StopReason.peerClosed) := by
  intro chunks
  induction chunks with
  | nil =>
    intro acc hne hlen hmark
    have h1 : ¬ (cap - 1 ≤ acc.length) := by
      simp only [List.flatten_nil, List.append_nil] at hlen
      omega
    simp [recvLoop, h1]
  | cons c rest ih =>
    intro acc hne hlen hmark
    have hc : c ≠ [] := hne c (by simp)
    have hassoc : acc ++ (c :: rest).flatten = (acc ++ c) ++ rest.flatten := by
      simp [List.flatten_cons, List.append_assoc]
    have hlen' : ((acc ++ c) ++ rest.flatten).length < cap - 1 := by
      rw [← hassoc]; exact hlen
    have h1 : ¬ (cap - 1 ≤ acc.length) := by
      simp only [List.length_append] at hlen'
      omega
    have htake : c.take (cap - 1 - acc.length) = c := by
      apply List.take_of_length_le
      simp only [List.length_append] at hlen'
      omega
    have hmark0 : containsSub ((acc ++ c) ++ rest.flatten) envelope_marker = false := by
      rw [← hassoc]; exact hmark
    have hmark' : containsSub (acc ++ c) envelope_marker = false := by
      cases hcc : containsSub (acc ++ c) envelope_marker
      · rfl
      · have := containsSub_append (acc ++ c) rest.flatten envelope_marker hcc
        rw [hmark0] at this
        exact absurd this (by simp)
    have hcne : ¬ (c.isEmpty = true) := by
      simpa [List.isEmpty_iff] using hc
    have hrec := ih (acc ++ c)
      (fun d hd => hne d (by simp [hd]))
      (by simpa [← hassoc] using hlen')
      (by simpa [← hassoc] using hmark0)
    simp only [List.cons_append, recvLoop]
    rw [if_neg h1, if_neg hcne]
    simp only [htake]
    rw [if_neg (by simp [hmark'])]
    simp only [List.append_eq]
    rw [hrec, hassoc]

/-- The inductive invariant for the socket pool: the queue length plus the
one push the background thread may have committed to never exceeds the
configured maximum. -/
def poolLoad (s : PoolState) : Nat :=
  s.qlen + (if s.pending then 1 else 0)

theorem poolLoad_step (max : Nat) (s s' : PoolState) (hs : PoolStep max s s')
    (hinv : poolLoad s ≤ max) : poolLoad s' ≤ max := by
  cases hs with
  | acquire =>
    cases hp : s.pending <;> simp [poolLoad, hp] at hinv ⊢ <;> omega
  | check h1 h2 =>
    simp [poolLoad, h1] at hinv ⊢
    omega
  | checkFull h1 h2 =>
    exact hinv
  | push h1 =>
    simp [poolLoad, h1] at hinv ⊢
    omega
  | createFail h1 =>
    simp [poolLoad, h1] at hinv ⊢
    omega

theorem poolLoad_reachable (max : Nat) (s : PoolState)
    (h : Relation.ReflTransGen (PoolStep max) ⟨0, false⟩ s) :
    poolLoad s ≤ max := by
  induction h with
  | refl => simp [poolLoad]
  | tail _ hstep ih => exact poolLoad_step max _ _ hstep ih

theorem exchange_data_sentChannels (cap : Nat) (env : SoapEnv)
    (keys : List (List Char)) (st : List ℚ) (input : control_input) :
    (exchange_data cap env keys st input).sentChannels = channels input := by
  unfold exchange_data
  by_cases h : env.startOk = false
  · simp [h]
  · cases hr : (soap_request_end env.sock 1000 env.selectReady cap
      env.events).1 <;> simp [h, hr]

/-! ## Claim theorems -/

/-- C1: for every ControlInput, the channel vector encoded into the
`ExchangeData` request body has exactly 12 elements, whose entries at
indices 0–5 are the input's aileron, elevator, throttle, rudder, flaps and
gear fields, and whose entries at indices 6–11 are 0.5; `exchange_data`
hands exactly this vector to the framer. -/
theorem C1_channel_vector (input : control_input) :
    (channels input).length = 12 ∧
    (channels input)[0]? = some input.aileron ∧
    (channels input)[1]? = some input.elevator ∧
    (channels input)[2]? = some input.throttle ∧
    (channels input)[3]? = some input.rudder ∧
    (channels input)[4]? = some input.flaps ∧
    (channels input)[5]? = some input.gear ∧
    (channels input)[6]? = some (1/2) ∧
    (channels input)[7]? = some (1/2) ∧
    (channels input)[8]? = some (1/2) ∧
    (channels input)[9]? = some (1/2) ∧
    (channels input)[10]? = some (1/2) ∧
    (channels input)[11]? = some (1/2) ∧
    (∀ (cap : Nat) (env : SoapEnv) (keys : List (List Char)) (st : List ℚ),
      (exchange_data cap env keys st input).sentChannels = channels input) := by
  refine ⟨rfl, rfl, rfl, rfl, rfl, rfl, rfl, rfl, rfl, rfl, rfl, rfl, rfl, ?_⟩
  intro cap env keys st
  exact exchange_data_sentChannels cap env keys st input

/-- C2: the decoder pairs the first occurrence of `<tag>` in the whole
buffer (`strstrIdx` really returns the first match) with the first
occurrence of `</tag>` after it; when either is missing, the field decodes
to exactly 0 — and `parse_reply` overwrites the slot with that value; the
enclosed text `true` decodes to 1, `false` to 0, a numeric string such as
`-3.5` to its numeric value, and an unparsable string to 0. -/
theorem C2_decoder :
    (∀ (pat xs : List Char) (i : Nat), strstrIdx pat xs = some i →
      pat.isPrefixOf (xs.drop i) = true ∧
      ∀ j, j < i → pat.isPrefixOf (xs.drop j) = false) ∧
    (∀ xml tag : List Char, strstrIdx ('<' :: (tag ++ ['>'])) xml = none →
      extract_value xml tag = 0) ∧
    (∀ (xml tag : List Char) (i : Nat),
      strstrIdx ('<' :: (tag ++ ['>'])) xml = some i →
      strstrIdx ('<' :: '/' :: (tag ++ ['>']))
        (xml.drop (i + ('<' :: (tag ++ ['>'])).length)) = none →
      extract_value xml tag = 0) ∧
    extract_value ("<t>true</t>".toList) ("t".toList) = 1 ∧
    extract_value ("<t>false</t>".toList) ("t".toList) = 0 ∧
    extract_value ("<t>-3.5</t>".toList) ("t".toList) = -(7/2) ∧
    extract_value ("<t>notanumber</t>".toList) ("t".toList) = 0 ∧
    extract_value ("<u>5</u>".toList) ("t".toList) = 0 := by
  refine ⟨fun pat xs i h => strstrIdx_first pat xs i h, ?_, ?_, ?_, ?_, ?_, ?_, ?_⟩
  · intro xml tag h
    simp [extract_value, h]
  · intro xml tag i h1 h2
    have h2' : strstrIdx ('<' :: '/' :: (tag ++ ['>']))
        (List.drop (i + (tag.length + 1 + 1)) xml) = none := by
      simpa using h2
    simp [extract_value, h1, h2']
  · with_unfolding_all rfl
  · with_unfolding_all rfl
  · with_unfolding_all rfl
  · with_unfolding_all rfl
  · with_unfolding_all rfl

theorem C2_decoder_witness :
    (("t".toList).isPrefixOf (("xty".toList).drop 1) = true ∧
      ∀ j, j < 1 → ("t".toList).isPrefixOf (("xty".toList).drop j) = false) ∧
    extract_value ("<u>5</u>".toList) ("t".toList) = 0 ∧
    extract_value ("<t>5".toList) ("t".toList) = 0 :=
  ⟨C2_decoder.1 ("t".toList) ("xty".toList) 1 (by decide),
   C2_decoder.2.1 ("<u>5</u>".toList) ("t".toList) (by decide),
   C2_decoder.2.2.1 ("<t>5".toList) ("t".toList) 0 (by decide) (by decide)⟩

/-- C7: `get_socket` pops and returns the connection at the front of the
idle queue when the queue is non-empty; on an empty queue it returns
whatever the synchronous `create_connection` call produced (never waiting
for the background refill) without touching the queue, and a creation
failure (`-1`) is returned as-is, with no retry. -/
theorem C7_get_socket :
    (∀ (c s : Int) (rest : List Int), get_socket (s :: rest) c = (s, rest)) ∧
    (∀ c : Int, get_socket [] c = (c, [])) ∧
    get_socket [] (-1) = (-1, []) :=
  ⟨fun _ _ _ => rfl, fun _ => rfl, rfl⟩

/-- C3: the session starts with `controller_started = false` (Uninitialized);
every call made in that state first attempts the fixed zero-argument
handshake (`InjectUAVControllerInterface` with body `<a>1</a><b>2</b>` and a
1000 ms reply timeout); a failed handshake (start failure or no reply)
leaves the session Uninitialized, performs no data exchange and leaves the
state untouched — so the next call attempts the handshake again; a received
handshake reply transitions the session to Active; once Active, a call
sends no handshake and goes straight to the data exchange. -/
theorem C3_session_state_machine :
    controller_started_init = false ∧
    (∀ (cap : Nat) (env : CallEnv) (keys : List (List Char)) (st : List ℚ)
        (input : control_input),
      (update cap env keys false st input).handshakeSent =
        some (inject_action, inject_body, handshake_timeout_ms)) ∧
    (∀ (cap : Nat) (env : CallEnv) (keys : List (List Char)) (st : List ℚ)
        (input : control_input),
      env.hs.startOk = false ∨
        (soap_request_end env.hs.sock handshake_timeout_ms env.hs.selectReady
          cap env.hs.events).1 = none →
      (update cap env keys false st input).started = false ∧
      (update cap env keys false st input).exchangeCalled = false ∧
      (update cap env keys false st input).st = st) ∧
    (∀ (cap : Nat) (env : CallEnv) (keys : List (List Char)) (st : List ℚ)
        (input : control_input) (r : List Char),
      env.hs.startOk = true →
      (soap_request_end env.hs.sock handshake_timeout_ms env.hs.selectReady
        cap env.hs.events).1 = some r →
      (update cap env keys false st input).started = true) ∧
    (∀ (cap : Nat) (env : CallEnv) (keys : List (List Char)) (st : List ℚ)
        (input : control_input),
      (update cap env keys true st input).handshakeSent = none ∧
      (update cap env keys true st input).exchangeCalled = true ∧
      (update cap env keys true st input).started = true) := by
  refine ⟨rfl, ?_, ?_, ?_, ?_⟩
  · intro cap env keys st input
    unfold update
    by_cases h : env.hs.startOk
    · simp only [h, if_true, if_pos rfl]
      cases hr : (soap_request_end env.hs.sock handshake_timeout_ms
        env.hs.selectReady cap env.hs.events).1 <;> simp [hr]
    · simp [h]
  · intro cap env keys st input h
    rcases h with h | h
    · simp [update, h]
    · unfold update
      by_cases hok : env.hs.startOk
      · simp [hok, h]
      · simp [hok]
  · intro cap env keys st input r h1 h2
    simp [update, h1, h2]
  · intro cap env keys st input
    simp [update]

theorem C3_session_state_machine_witness :
    ((update 100 ⟨⟨0, false, true, []⟩, ⟨0, true, true, []⟩⟩ [] false []
        ⟨0, 0, 0, 0, 0, 0⟩).started = false ∧
      (update 100 ⟨⟨0, false, true, []⟩, ⟨0, true, true, []⟩⟩ [] false []
        ⟨0, 0, 0, 0, 0, 0⟩).exchangeCalled = false ∧
      (update 100 ⟨⟨0, false, true, []⟩, ⟨0, true, true, []⟩⟩ [] false []
        ⟨0, 0, 0, 0, 0, 0⟩).st = []) ∧
    (update 100 ⟨⟨0, true, true, [("ok".toList)]⟩, ⟨0, true, true, []⟩⟩ []
      false [] ⟨0, 0, 0, 0, 0, 0⟩).started = true :=
  ⟨C3_session_state_machine.2.2.1 100 ⟨⟨0, false, true, []⟩, ⟨0, true, true, []⟩⟩
      [] [] ⟨0, 0, 0, 0, 0, 0⟩ (Or.inl rfl),
   C3_session_state_machine.2.2.2.1 100
      ⟨⟨0, true, true, [("ok".toList)]⟩, ⟨0, true, true, []⟩⟩ [] []
      ⟨0, 0, 0, 0, 0, 0⟩ ("ok".toList) rfl (by decide)⟩

/-- C9: on the very first call (`controller_started = false`), when the
handshake start succeeds and a handshake reply arrives, that same call also
performs the full data exchange: `exchange_data` runs with the supplied
ControlInput, the encoded channel vector of that input is handed to the
framer, and the resulting DecodedState and cycle outcome are exactly those
of `exchange_data`. -/
theorem C9_first_call_exchanges (cap : Nat) (env : CallEnv)
    (keys : List (List Char)) (st : List ℚ) (input : control_input)
    (r : List Char)
    (h1 : env.hs.startOk = true)
    (h2 : (soap_request_end env.hs.sock handshake_timeout_ms
      env.hs.selectReady cap env.hs.events).1 = some r) :
    (update cap env keys false st input).exchangeCalled = true ∧
    (update cap env keys false st input).sentChannels =
      some (channels input) ∧
    (update cap env keys false st input).st =
      (exchange_data cap env.ex keys st input).st ∧
    (update cap env keys false st input).exchangeOk =
      (exchange_data cap env.ex keys st input).ok := by
  simp [update, h1, h2, exchange_data_sentChannels]

theorem C9_first_call_exchanges_witness :
    (update 100 ⟨⟨0, true, true, [("ok".toList)]⟩, ⟨0, true, true, []⟩⟩ []
      false [] ⟨0, 0, 0, 0, 0, 0⟩).exchangeCalled = true ∧
    (update 100 ⟨⟨0, true, true, [("ok".toList)]⟩, ⟨0, true, true, []⟩⟩ []
      false [] ⟨0, 0, 0, 0, 0, 0⟩).sentChannels =
        some (channels ⟨0, 0, 0, 0, 0, 0⟩) :=
  ⟨(C9_first_call_exchanges 100
      ⟨⟨0, true, true, [("ok".toList)]⟩, ⟨0, true, true, []⟩⟩ [] []
      ⟨0, 0, 0, 0, 0, 0⟩ ("ok".toList) rfl (by decide)).1,
   (C9_first_call_exchanges 100
      ⟨⟨0, true, true, [("ok".toList)]⟩, ⟨0, true, true, []⟩⟩ [] []
      ⟨0, 0, 0, 0, 0, 0⟩ ("ok".toList) rfl (by decide)).2.1⟩

/-- C4: a data-exchange cycle in the Active state that gets no reply — start
failure, `select` timeout/error, or zero bytes read — leaves the
DecodedState record exactly as it was before the cycle (every slot keeps
its previous value) and skips the telemetry update for that cycle. -/
theorem C4_failed_cycle_keeps_state (cap : Nat) (env : SoapEnv)
    (keys : List (List Char)) (st : List ℚ) (input : control_input)
    (h : env.startOk = false ∨ env.selectReady = false ∨
      (recvLoop cap env.events []).1 = []) :
    (exchange_data cap env keys st input).st = st ∧
    (exchange_data cap env keys st input).ok = false := by
  have hres : env.startOk = false ∨
      (soap_request_end env.sock 1000 env.selectReady cap env.events).1 =
        none := by
    rcases h with h | h | h
    · exact Or.inl h
    · right
      by_cases hsk : env.sock < 0
      · simp [soap_request_end, hsk]
      · simp [soap_request_end, hsk, h]
    · right
      by_cases hsk : env.sock < 0
      · simp [soap_request_end, hsk]
      · by_cases hsel : env.selectReady = false
        · simp [soap_request_end, hsk, hsel]
        · simp [soap_request_end, hsk, hsel, h]
  rcases hres with h' | h'
  · simp [exchange_data, h']
  · by_cases hok : env.startOk = false
    · simp [exchange_data, hok]
    · simp [exchange_data, hok, h']

theorem C4_failed_cycle_keeps_state_witness :
    (exchange_data 8 ⟨3, true, false, []⟩ [] [5] ⟨0, 0, 0, 0, 0, 0⟩).st =
      [5] ∧
    (exchange_data 8 ⟨3, true, false, []⟩ [] [5] ⟨0, 0, 0, 0, 0, 0⟩).ok =
      false :=
  C4_failed_cycle_keeps_state 8 ⟨3, true, false, []⟩ [] [5] ⟨0, 0, 0, 0, 0, 0⟩
    (Or.inr (Or.inl rfl))

/-- C5: called with a valid open connection (`sock_fd >= 0`),
`soap_request_end` closes the connection before returning on every path;
on `select` timeout or wait error it reports failure (`nullptr`); otherwise
it returns the accumulated bytes when at least one byte was received, and
reports failure when zero bytes were received. -/
theorem C5_one_shot_close (sock_fd : Int) (timeout_ms : Nat)
    (selectReady : Bool) (cap : Nat) (events : List (List Char))
    (hfd : 0 ≤ sock_fd) :
    (soap_request_end sock_fd timeout_ms selectReady cap events).2 = true ∧
    (selectReady = false →
      (soap_request_end sock_fd timeout_ms selectReady cap events).1 =
        none) ∧
    (selectReady = true → (recvLoop cap events []).1 = [] →
      (soap_request_end sock_fd timeout_ms selectReady cap events).1 =
        none) ∧
    (selectReady = true → (recvLoop cap events []).1 ≠ [] →
      (soap_request_end sock_fd timeout_ms selectReady cap events).1 =
        some ((recvLoop cap events []).1)) := by
  have hneg : ¬ (sock_fd < 0) := by omega
  refine ⟨?_, ?_, ?_, ?_⟩
  · by_cases hs : selectReady = false
    · simp [soap_request_end, hneg, hs]
    · simp [soap_request_end, hneg, hs]
  · intro hs
    simp [soap_request_end, hneg, hs]
  · intro hs hbuf
    simp [soap_request_end, hneg, hs, hbuf]
  · intro hs hbuf
    simp only [soap_request_end, hneg, if_false, hs]
    simp [List.isEmpty_iff, hbuf]

theorem C5_one_shot_close_witness :
    (soap_request_end 3 1000 false 8 []).2 = true ∧
    (soap_request_end 3 1000 false 8 []).1 = none :=
  ⟨(C5_one_shot_close 3 1000 false 8 [] (by decide)).1,
   (C5_one_shot_close 3 1000 false 8 [] (by decide)).2.1 rfl⟩

/-- C6: under every interleaving of acquire steps (which only dequeue) and
background-refill steps (which check the size under the lock and push one
connection only when the check saw it below `max_pool_size`), every pool
state reachable from the empty pool has idle-queue length at most the
configured maximum. -/
theorem C6_pool_never_exceeds_max (max : Nat) (s : PoolState)
    (h : Relation.ReflTransGen (PoolStep max) ⟨0, false⟩ s) :
    s.qlen ≤ max := by
  have hload := poolLoad_reachable max s h
  unfold poolLoad at hload
  cases hp : s.pending <;> simp [hp] at hload <;> omega

theorem C6_pool_never_exceeds_max_witness :
    (PoolState.mk 1 false).qlen ≤ 1 :=
  C6_pool_never_exceeds_max 1 ⟨1, false⟩
    (Relation.ReflTransGen.tail
      (Relation.ReflTransGen.single (PoolStep.check ⟨0, false⟩ rfl (by decide)))
      (PoolStep.push ⟨0, true⟩ rfl))

/-- C8: the receive loop stops only because the buffer is full (and then it
holds at least `cap - 1` accumulated bytes), because the peer closed or
errored, or because the accumulated bytes contain the closing-envelope
marker (and then the buffer really contains it); and a reply whose bytes
never contain the marker is still returned in full once the peer closes
the connection, `soap_request_end` handing back exactly the bytes that
were received. -/
theorem C8_receive_loop_termination :
    (∀ (cap : Nat) (events : List (List Char)),
      ((recvLoop cap events []).2 = StopReason.bufferFull →
        cap - 1 ≤ (recvLoop cap events []).1.length) ∧
      ((recvLoop cap events []).2 = StopReason.markerFound →
        containsSub ((recvLoop cap events []).1) envelope_marker = true)) ∧
    (∀ (cap : Nat) (chunks : List (List Char)),
      (∀ c ∈ chunks, c ≠ ([] : List Char)) →
      chunks.flatten.length < cap - 1 →
      containsSub chunks.flatten envelope_marker = false →
      recvLoop cap (chunks ++ [[]]) [] =
        (chunks.flatten, StopReason.peerClosed) ∧
      (∀ fd : Int, 0 ≤ fd → chunks.flatten ≠ [] →
        (soap_request_end fd 1000 true cap (chunks ++ [[]])).1 =
          some chunks.flatten)) := by
  constructor
  · intro cap events
    exact ⟨recvLoop_full_reason cap events [],
      recvLoop_marker_reason cap events []⟩
  · intro cap chunks hne hlen hmark
    have hclose : recvLoop cap (chunks ++ [[]]) [] =
        (chunks.flatten, StopReason.peerClosed) := by
      have := recvLoop_closes cap chunks [] hne (by simpa using hlen)
        (by simpa using hmark)
      simpa using this
    refine ⟨hclose, ?_⟩
    intro fd hfd hne2
    have hneg : ¬ (fd < 0) := by omega
    simp only [soap_request_end, hneg, if_false, if_neg]
    rw [hclose]
    simp [List.isEmpty_iff, hne2]

theorem C8_receive_loop_termination_witness :
    recvLoop 100 ([("ab".toList)] ++ [[]]) [] =
      (([("ab".toList)] : List (List Char)).flatten,
        StopReason.peerClosed) ∧
    (soap_request_end 0 1000 true 100 ([("ab".toList)] ++ [[]])).1 =
      some (([("ab".toList)] : List (List Char)).flatten) :=
  ⟨(C8_receive_loop_termination.2 100 [("ab".toList)] (by decide) (by decide)
      (by decide)).1,
   (C8_receive_loop_termination.2 100 [("ab".toList)] (by decide) (by decide)
      (by decide)).2 0 (by decide) (by decide)⟩

/-- C10: on every execution of the receive loop the accumulated bytes never
exceed `cap - 1` (so with `cap = sizeof(reply_buffer)` the terminating NUL
written at index `total_received` lands strictly inside the buffer and no
write goes past its end), and any buffer `soap_request_end` returns has
length at most `cap - 1`. -/
theorem C10_reply_buffer_safety (cap : Nat) (hcap : 1 ≤ cap)
    (events : List (List Char)) :
    (recvLoop cap events []).1.length ≤ cap - 1 ∧
    (recvLoop cap events []).1.length < cap ∧
    (∀ (fd : Int) (t : Nat) (r : Bool) (b : List Char),
      (soap_request_end fd t r cap events).1 = some b →
      b.length ≤ cap - 1) := by
  have h1 := recvLoop_length cap events [] (by simp)
  refine ⟨h1, by omega, ?_⟩
  intro fd t r b hb
  by_cases hfd : fd < 0
  · simp [soap_request_end, hfd] at hb
  · by_cases hr : r = false
    · simp [soap_request_end, hfd, hr] at hb
    · have hr' : r = true := by
        cases r
        · exact absurd rfl hr
        · rfl
      by_cases hbuf : (recvLoop cap events []).1.isEmpty = true
      · simp [soap_request_end, hfd, hr', hbuf] at hb
      · simp [soap_request_end, hfd, hr', hbuf] at hb
        rw [← hb]
        exact h1

theorem C10_reply_buffer_safety_witness :
    (recvLoop 8 [("abc".toList)] []).1.length ≤ 8 - 1 ∧
    (recvLoop 8 [("abc".toList)] []).1.length < 8 :=
  ⟨(C10_reply_buffer_safety 8 (by decide) [("abc".toList)]).1,
   (C10_reply_buffer_safety 8 (by decide) [("abc".toList)]).2.1⟩
